import Mathlib

set_option autoImplicit false

namespace Tickets

/-!
Shallow embedding of the ticket-price tracker's core
(`src/scrapers/base.py`, `src/scrapers/stubhub.py`, `src/scrapers/viagogo.py`,
`src/scrapers/ticketmaster.py`, `src/alert_manager.py`).

Page text is modelled as `List Char`; prices as exact decimals in `ℚ`.
-/

/-- Python `\s` on the ASCII fragment, as used by the price patterns. -/
def isPySpace (c : Char) : Bool :=
  c == ' ' || c == '\t' || c == '\n' || c == '\r'

/-- Greedy `(?:,\d{3})*`: consume comma-plus-three-digit groups, returning the
consumed characters and the remainder. -/
def commaGroups : List Char → List Char × List Char
  | ',' :: a :: b :: c :: rest =>
    if a.isDigit && b.isDigit && c.isDigit then
      let (g, r) := commaGroups rest
      (',' :: a :: b :: c :: g, r)
    else ([], ',' :: a :: b :: c :: rest)
  | l => ([], l)

/-- Greedy `(?:\.\d{2})?`: optionally consume a dot and exactly two digits. -/
def centsOpt : List Char → List Char × List Char
  | '.' :: a :: b :: rest =>
    if a.isDigit && b.isDigit then (['.', a, b], rest)
    else ([], '.' :: a :: b :: rest)
  | l => ([], l)

/-- Match `\s*(\d+(?:,\d{3})*(?:\.\d{2})?)` at the head of `l` (the part of the
source pattern after the currency symbol), returning the captured group and the
remainder. This pattern has no backtracking: every part after `\d+` is
optional, so greedy left-to-right consumption is exact. -/
def matchAfterSymbol (l : List Char) : Option (List Char × List Char) :=
  let l1 := l.dropWhile isPySpace
  let ds := l1.takeWhile Char.isDigit
  let r1 := l1.dropWhile Char.isDigit
  if ds.isEmpty then none
  else
    let p2 := commaGroups r1
    let p3 := centsOpt p2.2
    some (ds ++ p2.1 ++ p3.1, p3.2)

/-- `re.findall` of the source pattern `SYM\\s*(\\d+(?:,\\d{3})*(?:\\.\\d{2})?)`:
scan left to right, collect the non-overlapping captures, resume after each
match. The scan consumes at least one character per step, so the input length
serves as structural fuel. -/
def findPricesAux (sym : Char) : Nat → List Char → List (List Char)
  | 0, _ => []
  | _ + 1, [] => []
  | fuel + 1, c :: rest =>
    if c = sym then
      match matchAfterSymbol rest with
      | some (cap, rest2) => cap :: findPricesAux sym fuel rest2
      | none => findPricesAux sym fuel rest
    else findPricesAux sym fuel rest

def findPrices (sym : Char) (l : List Char) : List (List Char) :=
  findPricesAux sym l.length l

/-- Numeric value of a digit string (most significant first). -/
def digitsVal (l : List Char) : ℕ :=
  l.foldl (fun n c => 10 * n + (c.toNat - 48)) 0

/-- `float(match.replace(",", ""))` on a capture of the price pattern, read as
an exact decimal: strip the thousand separators, then split at the optional
decimal point. -/
def parseDecimal (s : List Char) : ℚ :=
  let s' := s.filter (fun c => c != ',')
  let ip := s'.takeWhile (fun c => c != '.')
  match s'.dropWhile (fun c => c != '.') with
  | [] => (digitsVal ip : ℚ)
  | _ :: frac => (digitsVal ip : ℚ) + (digitsVal frac : ℚ) / (10 : ℚ) ^ frac.length

/-- `CurrencyConfig` from `base.py` (the numeric part of each pattern is the
same, so the pattern is represented by the currency symbol driving
`findPrices`). -/
structure CurrencyConfig where
  code : String
  symbol : Char
  deriving DecidableEq

/-- `BaseScraper.CURRENCIES` lookup (`dict.get`). -/
def CURRENCIES : String → Option CurrencyConfig
  | "USD" => some ⟨"USD", '$'⟩
  | "GBP" => some ⟨"GBP", '£'⟩
  | "EUR" => some ⟨"EUR", '€'⟩
  | _ => none

/-- `BaseScraper._extract_price`: iterate the currency codes in the given
order, skipping codes missing from `CURRENCIES`; stop at the first code whose
pattern has at least one match; take the first match, strip separators, parse;
return the price, the winning code, and all raw matches. -/
def extractPrice : List String → List Char → Option ℚ × Option String × List (List Char)
  | [], _ => (none, none, [])
  | code :: rest, text =>
    match CURRENCIES code with
    | none => extractPrice rest text
    | some cfg =>
      match findPrices cfg.symbol text with
      | [] => extractPrice rest text
      | m :: ms => (some (parseDecimal m), some code, m :: ms)

/-- Python's `str.lower()` on the ASCII fragment. -/
def lowerText (l : List Char) : List Char := l.map Char.toLower

/-- `str.lower()` on a source name (kept kernel-computable). -/
def pyLower (s : String) : String := ⟨lowerText s.data⟩

/-- Python's substring test `needle in hay`. -/
def containsSub : List Char → List Char → Bool
  | n, [] => n.isEmpty
  | n, c :: rest => n.isPrefixOf (c :: rest) || containsSub n rest

/-- `needle` occurs contiguously inside `hay`. -/
def SubstringOf (needle hay : List Char) : Prop :=
  ∃ pre post, hay = pre ++ needle ++ post

theorem containsSub_iff (n h : List Char) : containsSub n h = true ↔ SubstringOf n h := by
  induction h with
  | nil =>
    simp only [containsSub, List.isEmpty_iff, SubstringOf]
    constructor
    · rintro rfl; exact ⟨[], [], rfl⟩
    · rintro ⟨pre, post, he⟩
      exact (List.append_eq_nil.mp (List.append_eq_nil.mp he.symm).1).2
  | cons c rest ih =>
    simp only [containsSub, Bool.or_eq_true, ih, SubstringOf]
    constructor
    · rintro (hp | ⟨pre, post, rfl⟩)
      · obtain ⟨t, ht⟩ := List.isPrefixOf_iff_prefix.mp hp
        exact ⟨[], t, by simp [← ht]⟩
      · exact ⟨c :: pre, post, rfl⟩
    · rintro ⟨pre, post, he⟩
      cases pre with
      | nil =>
        left
        rw [List.isPrefixOf_iff_prefix]
        exact ⟨post, by simpa using he.symm⟩
      | cons p ps =>
        right
        obtain ⟨hc, hrest⟩ := List.cons_eq_cons.mp (by simpa using he)
        exact ⟨ps, post, by rw [hrest, List.append_assoc]⟩

/-- `BaseScraper._check_availability`: return `sold_out` at the first
indicator contained in the lower-cased text, else `available` when a price was
extracted, else `unknown`. -/
def checkAvailability (pageText : List Char) (price : Option ℚ)
    (indicators : List (List Char)) : String :=
  let lower := lowerText pageText
  match indicators.find? (fun ind => containsSub ind lower) with
  | some _ => "sold_out"
  | none => if price.isSome then "available" else "unknown"

/-- `BaseScraper.DEFAULT_SOLD_OUT_INDICATORS`. -/
def DEFAULT_SOLD_OUT_INDICATORS : List (List Char) :=
  ["sold out", "no tickets available", "event has passed", "event has ended",
   "unavailable", "no longer available", "no longer on sale"].map String.toList

/-- Python exception values, distinguishable by tag. -/
inductive PyErr where
  | attributeError
  | valueError (msg : String)
  | err (tag : String)
  deriving DecidableEq

/-- `str(e)` for the modelled exceptions. -/
def errText : PyErr → String
  | .attributeError => "AttributeError"
  | .valueError m => m
  | .err t => t

/-- `RawScrapeData` dataclass from `base.py`. -/
structure RawScrapeData where
  url : String
  pageTitle : String
  priceText : Option (List Char) := none
  currency : Option String := none
  allPricesFound : Option (List (List Char)) := none
  error : Option String := none
  deriving DecidableEq

/-- `ScrapeResult` dataclass from `base.py`. -/
structure ScrapeResult where
  price : Option ℚ
  availability : String
  rawData : RawScrapeData
  deriving DecidableEq

/-- Deterministic model of one rendered page session: the outcome of each
browser operation a scrape performs (navigation/waits before any text read,
the body text read, the markup fallback, the title read). -/
structure PageEnv where
  gotoErr : Option PyErr := none
  bodyText : Except PyErr (List Char) := .ok []
  htmlContent : List Char := []
  titleResult : Except PyErr String := .ok ""

/-- `BaseScraper._get_page_text`: body text, falling back to the full markup
when no currency symbol occurs in the text. -/
def getPageText (pg : PageEnv) : Except PyErr (List Char) :=
  match pg.bodyText with
  | .error e => .error e
  | .ok t =>
    if t.contains '$' || t.contains '£' || t.contains '€' then .ok t
    else .ok pg.htmlContent

/-- Per-marketplace parameters of `BaseScraper._scrape_price_page`. -/
structure SourceProfile where
  waitTimeMs : Nat
  currencies : List String
  soldOutIndicators : List (List Char)

/-- `BaseScraper._build_raw_data`. -/
def buildRawData (url : String) (title : String) (ms : List (List Char))
    (ccode : Option String) : RawScrapeData :=
  match ccode, ms with
  | some code, m :: _ =>
    match CURRENCIES code with
    | some cfg =>
      { url := url, pageTitle := title, priceText := some (cfg.symbol :: m),
        currency := some code,
        allPricesFound := some ((ms.take 10).map (fun p => cfg.symbol :: p)),
        error := none }
    | none =>
      { url := url, pageTitle := title, priceText := none, currency := some code,
        allPricesFound := none, error := none }
  | _, _ =>
    { url := url, pageTitle := title, priceText := none, currency := ccode,
      allPricesFound := none, error := none }

/-- `BaseScraper._scrape_price_page`: navigate, read text (errors propagate —
there is no try/except in the base pipeline), extract price, classify
availability, build raw data (the title read can also raise). -/
def scrapePricePage (profile : SourceProfile) (url : String) (pg : PageEnv) :
    Except PyErr ScrapeResult :=
  match pg.gotoErr with
  | some e => .error e
  | none =>
    match getPageText pg with
    | .error e => .error e
    | .ok text =>
      let ex := extractPrice profile.currencies text
      let price := ex.1
      let ccode := ex.2.1
      let ms := ex.2.2
      let availability := checkAvailability text price profile.soldOutIndicators
      match pg.titleResult with
      | .error e => .error e
      | .ok title => .ok ⟨price, availability, buildRawData url title ms ccode⟩

/-- The `TicketmasterScraper.scrape` parameters. -/
def ticketmasterProfile : SourceProfile :=
  ⟨15000, ["USD", "GBP"],
   (["sold out", "no tickets available", "event has passed", "unavailable"].map
     String.toList)⟩

/-- `TicketmasterScraper.scrape`. -/
def ticketmasterScrape (url : String) (pg : PageEnv) : Except PyErr ScrapeResult :=
  scrapePricePage ticketmasterProfile url pg

/-- The plain `dict` returned by `StubHubScraper.scrape` and
`ViagogoScraper.scrape` (fixed key set; `none` models an absent key). -/
structure ScrapeDict where
  price : Option ℚ
  availability : String
  priceText : Option (List Char) := none
  currency : Option String := none
  allPricesFound : Option (List (List Char)) := none
  url : Option String := none
  pageTitle : Option String := none
  error : Option String := none
  deriving DecidableEq

/-- The inline currency cascade of the StubHub/Viagogo scrapers: try each
symbol's pattern in turn, keeping the first with at least one match; returns
the matches, the winning symbol, and the winning code. -/
def firstSymbolMatches : List (Char × String) → List Char → List (List Char) × Char × String
  | [], _ => ([], '$', "")
  | [(sym, code)], text => (findPrices sym text, sym, code)
  | (sym, code) :: rest, text =>
    let ms := findPrices sym text
    if ms.isEmpty then firstSymbolMatches rest text else (ms, sym, code)

/-- Shared body of `StubHubScraper.scrape` and `ViagogoScraper.scrape`: both
return a plain dict; a navigation failure before the `try` block propagates; a
failure inside the `try` (modelled: the body-text read, or the title read) is
caught and yields availability `"error"`. The second `inner_text` read StubHub
does for the sold-out check is modelled as returning the same text as the
first. `raw_data["url"]` is assigned before the title read, so it is present
even when the title read raises. -/
def legacyDictScrape (syms : List (Char × String)) (indicators : List (List Char))
    (url : String) (pg : PageEnv) : Except PyErr ScrapeDict :=
  match pg.gotoErr with
  | some e => .error e
  | none =>
    match pg.bodyText with
    | .error e =>
      .ok { price := none, availability := "error", error := some (errText e) }
    | .ok text =>
      let q := firstSymbolMatches syms text
      let ms := q.1
      let sym := q.2.1
      let code := q.2.2
      let price : Option ℚ := match ms with | [] => none | m :: _ => some (parseDecimal m)
      let priceText : Option (List Char) :=
        match ms with | [] => none | m :: _ => some (sym :: m)
      let allFound : Option (List (List Char)) :=
        match ms with | [] => none | _ :: _ => some ((ms.take 10).map (fun p => sym :: p))
      let ccode : Option String := match ms with | [] => none | _ :: _ => some code
      let soldOut := indicators.any (fun ind => containsSub ind (lowerText text))
      let avail := if soldOut then "sold_out"
                   else if price.isSome then "available" else "unknown"
      match pg.titleResult with
      | .error e =>
        .ok { price := price, availability := "error", priceText := priceText,
              currency := ccode, allPricesFound := allFound, url := some url,
              pageTitle := none, error := some (errText e) }
      | .ok t =>
        .ok { price := price, availability := avail, priceText := priceText,
              currency := ccode, allPricesFound := allFound, url := some url,
              pageTitle := some t, error := none }

/-- `StubHubScraper.scrape` (USD then GBP; its own sold-out list). -/
def stubhubScrape (url : String) (pg : PageEnv) : Except PyErr ScrapeDict :=
  legacyDictScrape [('$', "USD"), ('£', "GBP")]
    (["sold out", "no tickets available", "event has ended", "no longer available"].map
      String.toList) url pg

/-- `ViagogoScraper.scrape` (USD, GBP, then EUR; its own sold-out list). -/
def viagogoScrape (url : String) (pg : PageEnv) : Except PyErr ScrapeDict :=
  legacyDictScrape [('$', "USD"), ('£', "GBP"), ('€', "EUR")]
    (["sold out", "no tickets available", "event has ended", "no longer on sale"].map
      String.toList) url pg

/-- What a scraper's `scrape` hands back to `process_alert`: Ticketmaster a
`ScrapeResult` dataclass, StubHub/Viagogo a plain dict. -/
inductive ScrapeOutput where
  | result (r : ScrapeResult)
  | dict (d : ScrapeDict)
  deriving DecidableEq

/-- tenacity `wait_exponential(multiplier=1, min=2, max=10)` after failed
attempt `n` (1-based): the doubling base delay clamped into `[2, 10]`. -/
def tenacityWait (n : Nat) : Nat := max 2 (min (2 ^ n) 10)

/-- Environment of `BaseScraper.scrape_with_retry`: the outcome of the wrapped
`scrape` per attempt (0-based), and whether each attempt's diagnostic captures
raise. -/
structure RetryEnv (α : Type) where
  attempts : Nat → Except PyErr α
  screenshotErr : Nat → Option PyErr := fun _ => none
  htmlErr : Nat → Option PyErr := fun _ => none

/-- Observable outcome of a retried scrape: the value or re-raised exception,
attempts made, backoff waits slept, and diagnostic files written. -/
structure RetryResult (α : Type) where
  outcome : Except PyErr α
  attemptsMade : Nat
  waits : List Nat
  screenshotsWritten : Nat
  htmlWritten : Nat

/-- One attempt of the `scrape_with_retry` body: on success return the value;
on failure run `save_screenshot` then `save_html` then re-raise. The saves are
not wrapped in any handler, so a raising save replaces the attempt's exception
and skips the rest of the except block. Returns the exception leaving the
attempt and the number of screenshot/markup files written. -/
def attemptOnce {α : Type} (env : RetryEnv α) (i : Nat) : Except PyErr α × Nat × Nat :=
  match env.attempts i with
  | .ok a => (.ok a, 0, 0)
  | .error e =>
    match env.screenshotErr i with
    | some e2 => (.error e2, 0, 0)
    | none =>
      match env.htmlErr i with
      | some e3 => (.error e3, 1, 0)
      | none => (.error e, 1, 1)

/-- `BaseScraper.scrape_with_retry` under tenacity
`retry(stop=stop_after_attempt(3), wait=wait_exponential(multiplier=1, min=2, max=10), reraise=True)`:
up to three attempts, backoff waits between them, the last attempt's exception
re-raised unmodified. -/
def scrapeWithRetry {α : Type} (env : RetryEnv α) : RetryResult α :=
  match attemptOnce env 0 with
  | (.ok a, s, h) => ⟨.ok a, 1, [], s, h⟩
  | (.error _, s1, h1) =>
    match attemptOnce env 1 with
    | (.ok a, s, h) => ⟨.ok a, 2, [tenacityWait 1], s1 + s, h1 + h⟩
    | (.error _, s2, h2) =>
      match attemptOnce env 2 with
      | (.ok a, s, h) =>
        ⟨.ok a, 3, [tenacityWait 1, tenacityWait 2], s1 + s2 + s, h1 + h2 + h⟩
      | (.error e3, s3, h3) =>
        ⟨.error e3, 3, [tenacityWait 1, tenacityWait 2], s1 + s2 + s3, h1 + h2 + h3⟩

/-- Environment of one `scraper.scrape_with_retry` call: the page session each
attempt sees, and the capture failures. -/
structure ScrapeEnv where
  pages : Nat → PageEnv
  screenshotErr : Nat → Option PyErr := fun _ => none
  htmlErr : Nat → Option PyErr := fun _ => none

/-- `AlertManager.get_scraper` + `scrape_with_retry`: dispatch on the
lower-cased source name (`none` = the `ValueError` for an unknown source) and
run the retried scrape of that scraper. -/
def runScrape (sourceLower : String) (url : String) (env : ScrapeEnv) :
    Option (RetryResult ScrapeOutput) :=
  if sourceLower = "ticketmaster" then
    some (scrapeWithRetry
      ⟨fun i => (ticketmasterScrape url (env.pages i)).map ScrapeOutput.result,
       env.screenshotErr, env.htmlErr⟩)
  else if sourceLower = "stubhub" then
    some (scrapeWithRetry
      ⟨fun i => (stubhubScrape url (env.pages i)).map ScrapeOutput.dict,
       env.screenshotErr, env.htmlErr⟩)
  else if sourceLower = "viagogo" then
    some (scrapeWithRetry
      ⟨fun i => (viagogoScrape url (env.pages i)).map ScrapeOutput.dict,
       env.screenshotErr, env.htmlErr⟩)
  else none

/-- The `Alert` row (`models.py`), restricted to the fields the core reads and
writes; timestamps are abstract naturals. -/
structure AlertState where
  id : Nat
  name : String
  source : String
  sourceUrl : String
  targetPrice : ℚ
  lastNotifiedPrice : Option ℚ
  isActive : Bool
  lastChecked : Option Nat
  deriving DecidableEq

/-- The stored `raw_data` JSON dict built by `AlertManager._raw_data_to_dict`:
mandatory url and page title, optional fields kept only when truthy. -/
structure RawDataDict where
  url : String
  pageTitle : String
  priceText : Option (List Char)
  currency : Option String
  allPricesFound : Option (List (List Char))
  error : Option String
  deriving DecidableEq

/-- Keep an optional value only when Python finds it truthy (non-empty). -/
def truthyOpt {β : Type} (isEmptyB : β → Bool) : Option β → Option β
  | none => none
  | some b => if isEmptyB b then none else some b

/-- `AlertManager._raw_data_to_dict`. -/
def rawDataToDict (r : RawScrapeData) : RawDataDict :=
  { url := r.url, pageTitle := r.pageTitle,
    priceText := truthyOpt List.isEmpty r.priceText,
    currency := truthyOpt String.isEmpty r.currency,
    allPricesFound := truthyOpt List.isEmpty r.allPricesFound,
    error := truthyOpt String.isEmpty r.error }

/-- A `PriceRecord` row (`models.py`). -/
structure PriceRecord where
  alertId : Nat
  price : ℚ
  availability : String
  rawData : RawDataDict
  deriving DecidableEq

/-- A `NotificationLog` row (`models.py`). -/
structure NotificationLog where
  alertId : Nat
  triggerReason : String
  price : ℚ
  deriving DecidableEq

/-- `AlertManager._should_notify`, a pure function of the triple it reads
(`alert.target_price`, `alert.last_notified_price`, `current_price`). The
source returns the empty string as the "no notification" reason. -/
def shouldNotify (targetPrice : ℚ) (lastNotified : Option ℚ) (currentPrice : ℚ) :
    Bool × String :=
  if targetPrice ≤ currentPrice then (false, "")
  else
    match lastNotified with
    | none => (true, "first_time")
    | some last =>
      if currentPrice < last then (true, "price_drop") else (false, "")

/-- `AlertManager._send_notification`: call the notifier (its result or raised
exception is the parameter); on `True` update `last_notified_price` and build a
`NotificationLog` with the current price; on `False` or an exception change
nothing (the except block only logs). -/
def sendNotification (notifierResult : Except PyErr Bool) (a : AlertState)
    (currentPrice : ℚ) (reason : String) : AlertState × Option NotificationLog :=
  match notifierResult with
  | .error _ => (a, none)
  | .ok false => (a, none)
  | .ok true =>
    ({ a with lastNotifiedPrice := some currentPrice },
     some ⟨a.id, reason, currentPrice⟩)

/-- Everything outside the program that one `process_alert` call observes. -/
structure AlertEnv where
  scrape : ScrapeEnv
  notifier : Except PyErr Bool
  now : Nat

/-- Per-alert transaction outcome: committed (`ok = true`, with the updated
alert row and the rows added) or rolled back (`ok = false`, nothing changed).
`notifierCalled` records whether `_send_notification` ran at all. -/
structure TxOutcome where
  ok : Bool
  alert : AlertState
  newRecord : Option PriceRecord
  newLog : Option NotificationLog
  notifierCalled : Bool
  deriving DecidableEq

/-- The rolled-back transaction of `process_alert`'s except branch. -/
def failTx (a : AlertState) : TxOutcome := ⟨false, a, none, none, false⟩

/-- `AlertManager.process_alert`: resolve the scraper (unknown source raises
`ValueError`), run the retried scrape, read `.price`/`.availability`/`.raw_data`
off the outcome (an `AttributeError` on the dict-returning scrapers), stamp
`last_checked`, store a `PriceRecord` only when a price is present, decide and
maybe notify, then commit; any exception rolls the transaction back. -/
def processAlertTx (env : AlertEnv) (a : AlertState) : TxOutcome :=
  match runScrape (pyLower a.source) a.sourceUrl env.scrape with
  | none => failTx a
  | some rr =>
    match rr.outcome with
    | .error _ => failTx a
    | .ok (.dict _) => failTx a
    | .ok (.result r) =>
      let a1 := { a with lastChecked := some env.now }
      match r.price with
      | none => ⟨true, a1, none, none, false⟩
      | some p =>
        let row : PriceRecord := ⟨a.id, p, r.availability, rawDataToDict r.rawData⟩
        let d := shouldNotify a.targetPrice a.lastNotifiedPrice p
        if d.1 then
          let n := sendNotification env.notifier a1 p d.2
          ⟨true, n.1, some row, n.2, true⟩
        else
          ⟨true, a1, some row, none, false⟩

/-- `process_alert`'s boolean return value. -/
def processAlertOk (env : AlertEnv) (a : AlertState) : Bool :=
  (processAlertTx env a).ok

/-- The persistent store: alert rows and the two append-only tables. -/
structure DB where
  alerts : List AlertState
  priceRecords : List PriceRecord
  notificationLogs : List NotificationLog
  deriving DecidableEq

/-- The `{total, success, failed}` tally of `process_all_alerts`. -/
structure BatchStats where
  total : Nat
  success : Nat
  failed : Nat
  deriving DecidableEq

/-- Intermediate result of the batch loop over a list of alert rows. -/
structure BatchAcc where
  alerts : List AlertState
  records : List PriceRecord
  logs : List NotificationLog
  succ : Nat
  fail : Nat
  deriving DecidableEq

/-- The loop of `process_all_alerts` over the alert rows: the k-th *active*
alert is processed with environment `envs k`; inactive rows are skipped by the
query filter and left untouched. -/
def processSeq (envs : Nat → AlertEnv) (k : Nat) : List AlertState → BatchAcc
  | [] => ⟨[], [], [], 0, 0⟩
  | a :: rest =>
    if a.isActive then
      let tx := processAlertTx (envs k) a
      let acc := processSeq envs (k + 1) rest
      ⟨tx.alert :: acc.alerts, tx.newRecord.toList ++ acc.records,
       tx.newLog.toList ++ acc.logs,
       (if tx.ok then 1 else 0) + acc.succ,
       (if tx.ok then 0 else 1) + acc.fail⟩
    else
      let acc := processSeq envs k rest
      ⟨a :: acc.alerts, acc.records, acc.logs, acc.succ, acc.fail⟩

/-- `AlertManager.process_all_alerts`: query the active alerts, process them in
order (each in its own transaction), tally the outcomes. -/
def processAllAlerts (envs : Nat → AlertEnv) (db : DB) : BatchStats × DB :=
  let acc := processSeq envs 0 db.alerts
  (⟨(db.alerts.filter (fun a => a.isActive)).length, acc.succ, acc.fail⟩,
   ⟨acc.alerts, db.priceRecords ++ acc.records, db.notificationLogs ++ acc.logs⟩)

/-! ### The notification law over a sequence of observations

`runAlerts` replays `_should_notify` over a price sequence, updating the
last-notified price exactly at the observations where a notification fires
(the behaviour of the processing loop when every send succeeds). -/

/-- The firing trace of `_should_notify` over a price sequence. -/
def runAlerts (t : ℚ) (last : Option ℚ) : List ℚ → List Bool
  | [] => []
  | p :: ps =>
    let fire := (shouldNotify t last p).1
    fire :: runAlerts t (if fire then some p else last) ps

/-- The last-notified state after consuming a price sequence. -/
def stateAfter (t : ℚ) (last : Option ℚ) : List ℚ → Option ℚ
  | [] => last
  | p :: ps =>
    stateAfter t (if (shouldNotify t last p).1 then some p else last) ps

/-! ### Helper lemmas -/

theorem attemptOnce_ok {α : Type} {env : RetryEnv α} {i : Nat} {a : α} {s hn : Nat}
    (hh : attemptOnce env i = (.ok a, s, hn)) : env.attempts i = .ok a := by
  unfold attemptOnce at hh
  cases he : env.attempts i with
  | ok b =>
    rw [he] at hh
    simp only [Prod.mk.injEq, Except.ok.injEq] at hh
    rw [hh.1]
  | error e =>
    rw [he] at hh
    cases hse : env.screenshotErr i with
    | some e2 => rw [hse] at hh; simp at hh
    | none =>
      rw [hse] at hh
      cases hhe : env.htmlErr i with
      | some e3 => rw [hhe] at hh; simp at hh
      | none => rw [hhe] at hh; simp at hh

theorem scrapeWithRetry_ok {α : Type} {env : RetryEnv α} {a : α}
    (h : (scrapeWithRetry env).outcome = .ok a) :
    ∃ i, i < 3 ∧ env.attempts i = .ok a := by
  unfold scrapeWithRetry at h
  cases h0 : attemptOnce env 0 with
  | mk o0 r0 =>
    cases r0 with
    | mk s0 n0 =>
      rw [h0] at h
      cases o0 with
      | ok a0 =>
        simp only [Except.ok.injEq] at h
        exact ⟨0, by omega, h ▸ attemptOnce_ok h0⟩
      | error e0 =>
        cases h1 : attemptOnce env 1 with
        | mk o1 r1 =>
          cases r1 with
          | mk s1 n1 =>
            rw [h1] at h
            cases o1 with
            | ok a1 =>
              simp only [Except.ok.injEq] at h
              exact ⟨1, by omega, h ▸ attemptOnce_ok h1⟩
            | error e1 =>
              cases h2 : attemptOnce env 2 with
              | mk o2 r2 =>
                cases r2 with
                | mk s2 n2 =>
                  rw [h2] at h
                  cases o2 with
                  | ok a2 =>
                    simp only [Except.ok.injEq] at h
                    exact ⟨2, by omega, h ▸ attemptOnce_ok h2⟩
                  | error e2 => simp at h

/-- Every value `checkAvailability` can return. -/
theorem checkAvailability_mem (text : List Char) (price : Option ℚ)
    (indicators : List (List Char)) :
    checkAvailability text price indicators
      ∈ (["available", "sold_out", "unknown"] : List String) := by
  simp only [checkAvailability]
  cases hf : indicators.find? (fun ind => containsSub ind (lowerText text)) with
  | some ind => simp
  | none => cases price <;> simp

/-- A `ScrapeResult` can only come out of `runScrape` through the Ticketmaster
pipeline. -/
theorem runScrape_result_source {src url : String} {env : ScrapeEnv}
    {rr : RetryResult ScrapeOutput} {r : ScrapeResult}
    (h : runScrape src url env = some rr) (ho : rr.outcome = .ok (.result r)) :
    ∃ i, i < 3 ∧ ticketmasterScrape url (env.pages i) = .ok r := by
  unfold runScrape at h
  by_cases ht : src = "ticketmaster"
  · rw [if_pos ht] at h
    obtain rfl := Option.some.inj h
    obtain ⟨i, hi, hatt⟩ := scrapeWithRetry_ok ho
    dsimp only at hatt
    refine ⟨i, hi, ?_⟩
    cases hsc : ticketmasterScrape url (env.pages i) with
    | ok b =>
      rw [hsc] at hatt
      simp only [Except.map, Except.ok.injEq, ScrapeOutput.result.injEq] at hatt
      rw [hatt]
    | error e => rw [hsc] at hatt; simp [Except.map] at hatt
  · rw [if_neg ht] at h
    by_cases hs : src = "stubhub"
    · rw [if_pos hs] at h
      obtain rfl := Option.some.inj h
      obtain ⟨i, _, hatt⟩ := scrapeWithRetry_ok ho
      dsimp only at hatt
      cases hsc : stubhubScrape url (env.pages i) with
      | ok d => rw [hsc] at hatt; simp [Except.map] at hatt
      | error e => rw [hsc] at hatt; simp [Except.map] at hatt
    · rw [if_neg hs] at h
      by_cases hv : src = "viagogo"
      · rw [if_pos hv] at h
        obtain rfl := Option.some.inj h
        obtain ⟨i, _, hatt⟩ := scrapeWithRetry_ok ho
        dsimp only at hatt
        cases hsc : viagogoScrape url (env.pages i) with
        | ok d => rw [hsc] at hatt; simp [Except.map] at hatt
        | error e => rw [hsc] at hatt; simp [Except.map] at hatt
      · rw [if_neg hv] at h; exact absurd h (by simp)

/-- For the dict-returning sources, whatever the retried scrape hands back on
success is a dict. -/
theorem runScrape_dict_out {src url : String} {env : ScrapeEnv}
    {rr : RetryResult ScrapeOutput} {out : ScrapeOutput}
    (hsrc : src = "stubhub" ∨ src = "viagogo")
    (h : runScrape src url env = some rr) (ho : rr.outcome = .ok out) :
    ∃ d, out = .dict d := by
  cases out with
  | dict d => exact ⟨d, rfl⟩
  | result r =>
    obtain ⟨i, _, hsc⟩ := runScrape_result_source h ho
    rcases hsrc with rfl | rfl
    · unfold runScrape at h
      rw [if_neg (by decide), if_pos rfl] at h
      obtain rfl := Option.some.inj h
      obtain ⟨j, _, hatt⟩ := scrapeWithRetry_ok ho
      dsimp only at hatt
      cases hsd : stubhubScrape url (env.pages j) with
      | ok d => rw [hsd] at hatt; simp [Except.map] at hatt
      | error e => rw [hsd] at hatt; simp [Except.map] at hatt
    · unfold runScrape at h
      rw [if_neg (by decide), if_neg (by decide), if_pos rfl] at h
      obtain rfl := Option.some.inj h
      obtain ⟨j, _, hatt⟩ := scrapeWithRetry_ok ho
      dsimp only at hatt
      cases hsd : viagogoScrape url (env.pages j) with
      | ok d => rw [hsd] at hatt; simp [Except.map] at hatt
      | error e => rw [hsd] at hatt; simp [Except.map] at hatt

/-! ### Claims -/

/-- C9: `_check_availability` returns `sold_out` exactly when some configured
phrase occurs anywhere in the lower-cased text — even when a price was
extracted; otherwise it returns `available` when a price was extracted and
`unknown` when none was. -/
theorem C9_availability_classifier (text : List Char) (price : Option ℚ)
    (indicators : List (List Char)) :
    (checkAvailability text price indicators = "sold_out" ↔
      ∃ ind ∈ indicators, SubstringOf ind (lowerText text))
    ∧ ((∀ ind ∈ indicators, ¬ SubstringOf ind (lowerText text)) →
      checkAvailability text price indicators
        = if price.isSome then "available" else "unknown") := by
  constructor
  · simp only [checkAvailability]
    cases hf : indicators.find? (fun ind => containsSub ind (lowerText text)) with
    | some ind =>
      constructor
      · intro _
        have hp := List.find?_some hf
        simp only at hp
        exact ⟨ind, List.mem_of_find?_eq_some hf, (containsSub_iff _ _).mp hp⟩
      · intro _; rfl
    | none =>
      constructor
      · intro heq
        cases price <;> simp only [Option.isSome, if_true, if_false] at heq <;>
          exact absurd heq (by decide)
      · rintro ⟨ind, hmem, hsub⟩
        have hnot := List.find?_eq_none.mp hf ind hmem
        exact absurd ((containsSub_iff _ _).mpr hsub) (by simpa using hnot)
  · intro hno
    simp only [checkAvailability]
    cases hf : indicators.find? (fun ind => containsSub ind (lowerText text)) with
    | some ind =>
      have hp := List.find?_some hf
      simp only at hp
      exact absurd ((containsSub_iff _ _).mp hp)
        (hno ind (List.mem_of_find?_eq_some hf))
    | none => rfl

/-- C9 witness: a page showing both a sold-out banner and an extractable
price classifies as `sold_out`. -/
theorem C9_witness :
    checkAvailability (String.toList "Sold Out - was $50.00") (some 50)
      DEFAULT_SOLD_OUT_INDICATORS = "sold_out" := by
  refine ((C9_availability_classifier _ _ _).1).mpr ?_
  exact ⟨String.toList "sold out", by decide,
    String.toList "", String.toList " - was $50.00", by decide⟩

/-- C6: `_send_notification` leaves the alert untouched and creates no record
when the notifier returns `False` or raises; on success it sets
`last_notified_price` to the current price and the created record's price
equals the alert's `last_notified_price` at that moment. -/
theorem C6_notification_update (res : Except PyErr Bool) (a : AlertState) (p : ℚ)
    (reason : String) :
    ((res = .ok false ∨ (∃ e, res = .error e)) →
      sendNotification res a p reason = (a, none))
    ∧ (res = .ok true →
      ∃ log, sendNotification res a p reason
          = ({ a with lastNotifiedPrice := some p }, some log)
        ∧ log.price = p
        ∧ some log.price = ({ a with lastNotifiedPrice := some p }).lastNotifiedPrice) := by
  cases res with
  | error e =>
    refine ⟨fun _ => rfl, fun hc => ?_⟩
    simp at hc
  | ok b =>
    cases b with
    | false =>
      refine ⟨fun _ => rfl, fun hc => ?_⟩
      simp at hc
    | true =>
      refine ⟨fun hc => ?_, fun _ => ⟨⟨a.id, reason, p⟩, rfl, rfl, rfl⟩⟩
      rcases hc with hc | ⟨e, hc⟩ <;> simp at hc

/-- Concrete alert rows used by the closed witnesses below. -/
def tmAlert : AlertState :=
  ⟨1, "A", "ticketmaster", "http://tm", 100, none, true, none⟩

def stubAlert : AlertState :=
  ⟨2, "S", "stubhub", "http://sh", 100, none, true, none⟩

/-- C6 witness: a successful send at price 50 updates the alert's
last-notified price to 50. -/
theorem C6_witness :
    (sendNotification (Except.ok true) tmAlert 50 "first_time").1.lastNotifiedPrice
      = some 50 := by
  obtain ⟨log, h1, h2, _⟩ := (C6_notification_update (.ok true) tmAlert 50 "first_time").2 rfl
  rw [h1]

/-- A retried scrape whose three attempts all fail and whose diagnostic
captures succeed. -/
def allFailRetryEnv : RetryEnv Unit :=
  ⟨fun _ => .error (.err "boom"), fun _ => none, fun _ => none⟩

/-- C3 counterexample: with every attempt failing, three screenshots and three
markup dumps are written in total — not exactly one of each. -/
theorem C3_counterexample :
    allFailRetryEnv.attempts 0 = .error (.err "boom")
    ∧ allFailRetryEnv.attempts 1 = .error (.err "boom")
    ∧ allFailRetryEnv.attempts 2 = .error (.err "boom")
    ∧ (scrapeWithRetry allFailRetryEnv).screenshotsWritten = 3
    ∧ (scrapeWithRetry allFailRetryEnv).htmlWritten = 3
    ∧ ¬ ((scrapeWithRetry allFailRetryEnv).screenshotsWritten = 1
        ∧ (scrapeWithRetry allFailRetryEnv).htmlWritten = 1) := by
  refine ⟨rfl, rfl, rfl, rfl, rfl, ?_⟩
  intro hc
  have h3 : (scrapeWithRetry allFailRetryEnv).screenshotsWritten = 3 := rfl
  rw [hc.1] at h3
  exact absurd h3 (by decide)

/-- C3 amended: when all three attempts fail the wrapper makes exactly 3
attempts, sleeps backoff waits bounded in `[2, 10]` between them, re-raises
the final attempt's exception unmodified, and writes one screenshot and one
markup dump per failed attempt — three of each in total. -/
theorem C3_retry_diagnostics {α : Type} (env : RetryEnv α) (e0 e1 e2 : PyErr)
    (h0 : env.attempts 0 = .error e0) (h1 : env.attempts 1 = .error e1)
    (h2 : env.attempts 2 = .error e2)
    (hs : ∀ i, env.screenshotErr i = none) (hh : ∀ i, env.htmlErr i = none) :
    (scrapeWithRetry env).attemptsMade = 3
    ∧ (scrapeWithRetry env).outcome = .error e2
    ∧ (scrapeWithRetry env).screenshotsWritten = 3
    ∧ (scrapeWithRetry env).htmlWritten = 3
    ∧ (scrapeWithRetry env).waits = [tenacityWait 1, tenacityWait 2]
    ∧ ∀ w ∈ (scrapeWithRetry env).waits, 2 ≤ w ∧ w ≤ 10 := by
  have a0 : attemptOnce env 0 = (.error e0, 1, 1) := by
    unfold attemptOnce; rw [h0, hs 0, hh 0]
  have a1 : attemptOnce env 1 = (.error e1, 1, 1) := by
    unfold attemptOnce; rw [h1, hs 1, hh 1]
  have a2 : attemptOnce env 2 = (.error e2, 1, 1) := by
    unfold attemptOnce; rw [h2, hs 2, hh 2]
  have hfull : scrapeWithRetry env
      = ⟨.error e2, 3, [tenacityWait 1, tenacityWait 2], 3, 3⟩ := by
    simp [scrapeWithRetry, a0, a1, a2]
  rw [hfull]
  refine ⟨rfl, rfl, rfl, rfl, rfl, ?_⟩
  intro w hw
  simp only [tenacityWait, List.mem_cons, List.not_mem_nil, or_false] at hw
  rcases hw with rfl | rfl <;> exact ⟨by decide, by decide⟩

/-- C3 witness: the amended retry facts at a concrete all-failing scrape. -/
theorem C3_witness :
    (scrapeWithRetry allFailRetryEnv).attemptsMade = 3
    ∧ (scrapeWithRetry allFailRetryEnv).outcome = .error (.err "boom")
    ∧ (scrapeWithRetry allFailRetryEnv).waits = [2, 4] := by
  have h := C3_retry_diagnostics allFailRetryEnv (.err "boom") (.err "boom") (.err "boom")
    rfl rfl rfl (fun _ => rfl) (fun _ => rfl)
  exact ⟨h.1, h.2.1, h.2.2.2.2.1⟩

/-- Retry environment whose final attempt's screenshot capture raises. -/
def captureFailEnv : RetryEnv Unit :=
  ⟨fun _ => .error (.err "nav_timeout"),
   fun i => if i = 2 then some (.err "disk_full") else none,
   fun _ => none⟩

/-- C10 counterexample: every scrape attempt fails with the same scraping
error, the final attempt's screenshot capture raises, and the exception the
caller receives is the capture failure — not the original scraping failure. -/
theorem C10_counterexample :
    captureFailEnv.attempts 0 = .error (.err "nav_timeout")
    ∧ captureFailEnv.attempts 1 = .error (.err "nav_timeout")
    ∧ captureFailEnv.attempts 2 = .error (.err "nav_timeout")
    ∧ (scrapeWithRetry captureFailEnv).outcome = .error (.err "disk_full")
    ∧ (PyErr.err "disk_full") ≠ (PyErr.err "nav_timeout") := by
  exact ⟨rfl, rfl, rfl, rfl, by decide⟩

/-- C10 amended: diagnostic-capture failures are not caught — when the final
attempt's screenshot save raises, that exception replaces the scraping failure
and reaches the caller, and that attempt's markup dump is skipped. -/
theorem C10_capture_failure_masks {α : Type} (env : RetryEnv α)
    (e0 e1 e2 ec : PyErr)
    (h0 : env.attempts 0 = .error e0) (h1 : env.attempts 1 = .error e1)
    (h2 : env.attempts 2 = .error e2)
    (hs0 : env.screenshotErr 0 = none) (hs1 : env.screenshotErr 1 = none)
    (hs2 : env.screenshotErr 2 = some ec)
    (hh0 : env.htmlErr 0 = none) (hh1 : env.htmlErr 1 = none) :
    (scrapeWithRetry env).outcome = .error ec
    ∧ (scrapeWithRetry env).screenshotsWritten = 2
    ∧ (scrapeWithRetry env).htmlWritten = 2 := by
  have a0 : attemptOnce env 0 = (.error e0, 1, 1) := by
    unfold attemptOnce; rw [h0, hs0, hh0]
  have a1 : attemptOnce env 1 = (.error e1, 1, 1) := by
    unfold attemptOnce; rw [h1, hs1, hh1]
  have a2 : attemptOnce env 2 = (.error ec, 0, 0) := by
    unfold attemptOnce; rw [h2, hs2]
  have hfull : scrapeWithRetry env
      = ⟨.error ec, 3, [tenacityWait 1, tenacityWait 2], 2, 2⟩ := by
    simp [scrapeWithRetry, a0, a1, a2]
  rw [hfull]
  exact ⟨rfl, rfl, rfl⟩

/-- C10 witness: the amended capture-failure facts at the concrete
environment of the counterexample. -/
theorem C10_witness :
    (scrapeWithRetry captureFailEnv).outcome = .error (.err "disk_full")
    ∧ (scrapeWithRetry captureFailEnv).screenshotsWritten = 2 := by
  have h := C10_capture_failure_masks captureFailEnv
    (.err "nav_timeout") (.err "nav_timeout") (.err "nav_timeout") (.err "disk_full")
    rfl rfl rfl rfl rfl rfl rfl rfl
  exact ⟨h.1, h.2.1⟩

/-- `process_alert` on an unknown source: the `ValueError` rolls the
transaction back. -/
theorem processAlertTx_noScraper {env : AlertEnv} {a : AlertState}
    (hrs : runScrape (pyLower a.source) a.sourceUrl env.scrape = none) :
    processAlertTx env a = failTx a := by
  simp only [processAlertTx, hrs]

/-- `process_alert` on a scrape handing back a dict: the attribute error rolls
the transaction back. -/
theorem processAlertTx_dict {env : AlertEnv} {a : AlertState}
    {rr : RetryResult ScrapeOutput} {d : ScrapeDict}
    (hrs : runScrape (pyLower a.source) a.sourceUrl env.scrape = some rr)
    (ho : rr.outcome = .ok (.dict d)) :
    processAlertTx env a = failTx a := by
  simp only [processAlertTx, hrs, ho]

/-- `process_alert` on a scrape that raises out of the retry wrapper: the
transaction is rolled back. -/
theorem processAlertTx_error {env : AlertEnv} {a : AlertState}
    {rr : RetryResult ScrapeOutput} {e : PyErr}
    (hrs : runScrape (pyLower a.source) a.sourceUrl env.scrape = some rr)
    (ho : rr.outcome = .error e) :
    processAlertTx env a = failTx a := by
  simp only [processAlertTx, hrs, ho]

/-- `process_alert` on a scrape returning a `ScrapeResult`: the committed
transaction, explicitly. -/
theorem processAlertTx_result {env : AlertEnv} {a : AlertState}
    {rr : RetryResult ScrapeOutput} {r : ScrapeResult}
    (hrs : runScrape (pyLower a.source) a.sourceUrl env.scrape = some rr)
    (ho : rr.outcome = .ok (.result r)) :
    processAlertTx env a =
      match r.price with
      | none => ⟨true, { a with lastChecked := some env.now }, none, none, false⟩
      | some p =>
        let a1 := { a with lastChecked := some env.now }
        let row : PriceRecord := ⟨a.id, p, r.availability, rawDataToDict r.rawData⟩
        let d := shouldNotify a.targetPrice a.lastNotifiedPrice p
        if d.1 then
          let n := sendNotification env.notifier a1 p d.2
          ⟨true, n.1, some row, n.2, true⟩
        else ⟨true, a1, some row, none, false⟩ := by
  simp only [processAlertTx, hrs, ho]

/-- C5 counterexample: a StubHub scrape whose in-`try` work raises returns the
availability value `"error"`, outside the claimed three-value set, even though
the scrape returns normally. -/
theorem C5_counterexample :
    stubhubScrape "u" { bodyText := .error (.err "timeout") }
      = .ok { price := none, availability := "error", error := some "timeout" }
    ∧ ("error" : String) ∉ (["available", "sold_out", "unknown"] : List String) := by
  exact ⟨rfl, by decide⟩

/-- C5 amended: the availability classifier and every `ScrapeResult` of the
shared pipeline take only the three values `available`/`sold_out`/`unknown`,
and so does the availability stored in any persisted `PriceRecord`; only the
StubHub/Viagogo dict scrapers can additionally produce `"error"`, and those
dicts never reach a `PriceRecord`. -/
theorem C5_availability_values :
    (∀ text price inds,
      checkAvailability text price inds
        ∈ (["available", "sold_out", "unknown"] : List String))
    ∧ (∀ profile url pg r, scrapePricePage profile url pg = Except.ok r →
        r.availability ∈ (["available", "sold_out", "unknown"] : List String))
    ∧ (∀ env a row, (processAlertTx env a).newRecord = some row →
        row.availability ∈ (["available", "sold_out", "unknown"] : List String)) := by
  have part2 : ∀ profile url pg r, scrapePricePage profile url pg = Except.ok r →
      r.availability ∈ (["available", "sold_out", "unknown"] : List String) := by
    intro profile url pg r h
    unfold scrapePricePage at h
    cases hg : pg.gotoErr with
    | some e => rw [hg] at h; simp at h
    | none =>
      rw [hg] at h
      cases ht : getPageText pg with
      | error e => rw [ht] at h; simp at h
      | ok text =>
        rw [ht] at h
        cases hti : pg.titleResult with
        | error e => rw [hti] at h; simp at h
        | ok title =>
          rw [hti] at h
          simp only [Except.ok.injEq] at h
          rw [← h]
          exact checkAvailability_mem _ _ _
  refine ⟨checkAvailability_mem, part2, ?_⟩
  intro env a row h
  cases hrs : runScrape (pyLower a.source) a.sourceUrl env.scrape with
  | none => rw [processAlertTx_noScraper hrs] at h; simp [failTx] at h
  | some rr =>
    cases ho : rr.outcome with
    | error e => rw [processAlertTx_error hrs ho] at h; simp [failTx] at h
    | ok out =>
      cases out with
      | dict d => rw [processAlertTx_dict hrs ho] at h; simp [failTx] at h
      | result r =>
        rw [processAlertTx_result hrs ho] at h
        obtain ⟨i, _, hsc⟩ := runScrape_result_source hrs ho
        cases hp : r.price with
        | none => rw [hp] at h; simp at h
        | some p =>
          rw [hp] at h
          have hrow : row.availability = r.availability := by
            by_cases hd : (shouldNotify a.targetPrice a.lastNotifiedPrice p).1
            · simp only [hd, if_true] at h
              obtain rfl := Option.some.inj h.symm
              rfl
            · simp only [hd, if_false] at h
              obtain rfl := Option.some.inj h.symm
              rfl
          rw [hrow]
          exact part2 ticketmasterProfile a.sourceUrl (env.scrape.pages i) r hsc

/-- The concrete page and environment used by several witnesses: the rendered
text carries one USD price, every browser operation succeeds. -/
def goodPage : PageEnv := { bodyText := .ok (String.toList "only $80 left") }

def goodEnv : AlertEnv := ⟨⟨fun _ => goodPage, fun _ => none, fun _ => none⟩, .ok true, 9⟩

/-- The price row the concrete successful alert run stores. -/
def goodRow : PriceRecord :=
  ((processAlertTx goodEnv tmAlert).newRecord).getD ⟨0, 0, "", ⟨"", "", none, none, none, none⟩⟩

/-- C5 witness: the availability persisted by the concrete successful alert
run is among the three values. -/
theorem C5_witness :
    goodRow.availability ∈ (["available", "sold_out", "unknown"] : List String) := by
  have hr : (processAlertTx goodEnv tmAlert).newRecord = some goodRow := rfl
  exact (C5_availability_values).2.2 goodEnv tmAlert goodRow hr

/-- C2: for an alert whose source resolves to StubHub or Viagogo, whenever the
retried scrape returns normally, `process_alert` still fails the alert: the
dict return triggers the attribute error, the transaction rolls back, and no
observation, notification, or `last_checked` update occurs. -/
theorem C2_dict_sources_fail (env : AlertEnv) (a : AlertState)
    (hsrc : pyLower a.source = "stubhub" ∨ pyLower a.source = "viagogo")
    (rr : RetryResult ScrapeOutput)
    (hrr : runScrape (pyLower a.source) a.sourceUrl env.scrape = some rr)
    (out : ScrapeOutput) (ho : rr.outcome = .ok out) :
    processAlertTx env a = ⟨false, a, none, none, false⟩
    ∧ ∃ d, out = .dict d := by
  obtain ⟨d, rfl⟩ := runScrape_dict_out hsrc hrr ho
  refine ⟨?_, d, rfl⟩
  simp only [processAlertTx, hrr, ho]
  rfl

/-- C2 witness: a concrete StubHub alert whose scrape returns normally is
still counted as failed with nothing persisted. -/
theorem C2_witness :
    processAlertTx goodEnv stubAlert = ⟨false, stubAlert, none, none, false⟩ := by
  exact (C2_dict_sources_fail goodEnv stubAlert (Or.inl rfl) _ rfl _ rfl).1

/-- A ticketmaster alert environment whose navigation fails on every attempt. -/
def navFailEnv : AlertEnv :=
  ⟨⟨fun _ => { gotoErr := some (.err "nav") }, fun _ => none, fun _ => none⟩, .ok true, 7⟩

/-- C4 counterexample: a processed alert whose scrape fails does NOT get its
`last_checked` stamped — the whole transaction is rolled back. -/
theorem C4_counterexample :
    (processAlertTx navFailEnv tmAlert).ok = false
    ∧ (processAlertTx navFailEnv tmAlert).alert.lastChecked = none
    ∧ none ≠ some navFailEnv.now := by
  exact ⟨rfl, rfl, by decide⟩

/-- C4 amended: when the scrape hands back a `ScrapeResult` (success or empty
extraction) the transaction commits with `last_checked` stamped to now and a
`PriceRecord` exists iff a price was extracted — an empty extraction stores no
observation and attempts no notification; but when the scrape raises, the
transaction rolls back and `last_checked` is left unchanged. -/
theorem C4_last_checked_and_observation (env : AlertEnv) (a : AlertState) :
    (∀ rr r, runScrape (pyLower a.source) a.sourceUrl env.scrape = some rr →
      rr.outcome = .ok (.result r) →
      (processAlertTx env a).ok = true
      ∧ (processAlertTx env a).alert.lastChecked = some env.now
      ∧ ((processAlertTx env a).newRecord.isSome ↔ r.price.isSome)
      ∧ (r.price = none →
          (processAlertTx env a).newRecord = none
          ∧ (processAlertTx env a).newLog = none
          ∧ (processAlertTx env a).notifierCalled = false))
    ∧ (∀ rr e, runScrape (pyLower a.source) a.sourceUrl env.scrape = some rr →
      rr.outcome = .error e →
      processAlertTx env a = failTx a ∧ (failTx a).alert = a) := by
  constructor
  · intro rr r hrs ho
    rw [processAlertTx_result hrs ho]
    cases hp : r.price with
    | none => exact ⟨rfl, rfl, by simp, fun _ => ⟨rfl, rfl, rfl⟩⟩
    | some p =>
      refine ⟨?_, ?_, ?_, fun hc => by simp at hc⟩
      · by_cases hd : (shouldNotify a.targetPrice a.lastNotifiedPrice p).1 <;> simp [hd]
      · by_cases hd : (shouldNotify a.targetPrice a.lastNotifiedPrice p).1
        · simp only [hd, if_true]
          cases hn : env.notifier with
          | error e => simp [sendNotification, hn]
          | ok b => cases b <;> simp [sendNotification, hn]
        · simp [hd]
      · by_cases hd : (shouldNotify a.targetPrice a.lastNotifiedPrice p).1 <;> simp [hd]
  · intro rr e hrs ho
    exact ⟨processAlertTx_error hrs ho, rfl⟩

/-- C4 witness: the amended facts at a concrete successful scrape. -/
theorem C4_witness :
    (processAlertTx goodEnv tmAlert).ok = true
    ∧ (processAlertTx goodEnv tmAlert).alert.lastChecked = some 9 := by
  have h := (C4_last_checked_and_observation goodEnv tmAlert).1 _ _ rfl rfl
  exact ⟨h.1, h.2.1⟩

/-- Every currency listed (and known to the currency table) has no pattern
match in the text. -/
def NoCurrencyMatch (currencies : List String) (text : List Char) : Prop :=
  ∀ code ∈ currencies, ∀ cfg, CURRENCIES code = some cfg →
    findPrices cfg.symbol text = []

theorem extractPrice_cons_none {code : String} {rest : List String} {text : List Char}
    (hc : CURRENCIES code = none) :
    extractPrice (code :: rest) text = extractPrice rest text := by
  simp only [extractPrice, hc]

theorem extractPrice_cons_nil {code : String} {rest : List String} {text : List Char}
    {cfg : CurrencyConfig} (hc : CURRENCIES code = some cfg)
    (hf : findPrices cfg.symbol text = []) :
    extractPrice (code :: rest) text = extractPrice rest text := by
  simp only [extractPrice, hc, hf]

theorem extractPrice_cons_match {code : String} {rest : List String} {text : List Char}
    {cfg : CurrencyConfig} {m : List Char} {ms : List (List Char)}
    (hc : CURRENCIES code = some cfg) (hf : findPrices cfg.symbol text = m :: ms) :
    extractPrice (code :: rest) text = (some (parseDecimal m), some code, m :: ms) := by
  simp only [extractPrice, hc, hf]

theorem extractPrice_none_iff (currencies : List String) (text : List Char) :
    extractPrice currencies text = (none, none, []) ↔ NoCurrencyMatch currencies text := by
  induction currencies with
  | nil =>
    constructor
    · intro _ code hmem
      simp at hmem
    · intro _
      rfl
  | cons code rest ih =>
    cases hc : CURRENCIES code with
    | none =>
      rw [extractPrice_cons_none hc, ih]
      constructor
      · intro h c hmem cfg hcfg
        rcases List.mem_cons.mp hmem with rfl | hmem2
        · rw [hc] at hcfg
          exact absurd hcfg (by simp)
        · exact h c hmem2 cfg hcfg
      · intro h c hmem cfg hcfg
        exact h c (List.mem_cons_of_mem code hmem) cfg hcfg
    | some cfg =>
      cases hf : findPrices cfg.symbol text with
      | nil =>
        rw [extractPrice_cons_nil hc hf, ih]
        constructor
        · intro h c hmem cfg2 hcfg
          rcases List.mem_cons.mp hmem with rfl | hmem2
          · rw [hc] at hcfg
            obtain rfl := Option.some.inj hcfg
            exact hf
          · exact h c hmem2 cfg2 hcfg
        · intro h c hmem cfg2 hcfg
          exact h c (List.mem_cons_of_mem code hmem) cfg2 hcfg
      | cons m ms =>
        rw [extractPrice_cons_match hc hf]
        constructor
        · intro h
          simp at h
        · intro h
          have hz := h code (List.mem_cons_self code rest) cfg hc
          rw [hz] at hf
          exact absurd hf (by simp)

theorem extractPrice_first_match (pre post : List String) (code : String)
    (cfg : CurrencyConfig) (text : List Char) (m : List Char) (ms : List (List Char))
    (hcfg : CURRENCIES code = some cfg) (hf : findPrices cfg.symbol text = m :: ms) :
    NoCurrencyMatch pre text →
    extractPrice (pre ++ code :: post) text
      = (some (parseDecimal m), some code, m :: ms) := by
  induction pre with
  | nil =>
    intro _
    rw [List.nil_append, extractPrice_cons_match hcfg hf]
  | cons c pre2 ih =>
    intro hpre
    have hrest : NoCurrencyMatch pre2 text := by
      intro c2 hmem cfg2 hcfg2
      exact hpre c2 (List.mem_cons_of_mem c hmem) cfg2 hcfg2
    rw [List.cons_append]
    cases hc : CURRENCIES c with
    | none =>
      rw [extractPrice_cons_none hc]
      exact ih hrest
    | some cfgc =>
      have hz := hpre c (List.mem_cons_self c pre2) cfgc hc
      rw [extractPrice_cons_nil hc hz]
      exact ih hrest

/-- C8: the price extractor tries the currencies in order, stops at the first
with at least one match, takes the first match in document order, strips
thousand separators and parses a decimal ("$1,234.56" yields 1234.56); when no
currency matches it returns absent price and absent currency (not zero, not an
error); diagnostics report at most the first 10 raw matches. -/
theorem C8_price_extractor :
    (∀ currencies text,
      extractPrice currencies text = (none, none, []) ↔ NoCurrencyMatch currencies text)
    ∧ (∀ pre post code cfg text m ms,
      CURRENCIES code = some cfg → findPrices cfg.symbol text = m :: ms →
      NoCurrencyMatch pre text →
      extractPrice (pre ++ code :: post) text
        = (some (parseDecimal m), some code, m :: ms))
    ∧ extractPrice ["USD", "GBP"] (String.toList "now $1,234.56!")
      = (some (1234.56 : ℚ), some "USD", [String.toList "1,234.56"])
    ∧ (∀ url title ms ccode l,
      (buildRawData url title ms ccode).allPricesFound = some l → l.length ≤ 10) := by
  refine ⟨extractPrice_none_iff, ?_, ?_, ?_⟩
  · intro pre post code cfg text m ms hcfg hf hpre
    exact extractPrice_first_match pre post code cfg text m ms hcfg hf hpre
  · have hp : parseDecimal (String.toList "1,234.56") = (1234.56 : ℚ) := by
      rw [show parseDecimal (String.toList "1,234.56") = (1234 : ℚ) + 56 / 10 ^ 2 from rfl]
      norm_num
    rw [@extractPrice_cons_match "USD" ["GBP"] (String.toList "now $1,234.56!")
      ⟨"USD", '$'⟩ (String.toList "1,234.56") [] rfl (by decide), hp]
  · intro url title ms ccode l h
    unfold buildRawData at h
    cases ccode with
    | none => simp at h
    | some c =>
      cases ms with
      | nil => simp at h
      | cons m ms2 =>
        dsimp only at h
        cases hc : CURRENCIES c with
        | none => rw [hc] at h; simp at h
        | some cfg =>
          rw [hc] at h
          dsimp only at h
          simp only [Option.some.injEq] at h
          rw [← h, List.length_map]
          exact List.length_take_le 10 (m :: ms2)

/-- C8 witness: the first-matching-currency rule at a GBP-only page with USD
listed first. -/
theorem C8_witness :
    extractPrice ["USD", "GBP"] (String.toList "tickets £75.00")
      = (some 75, some "GBP", [String.toList "75.00"]) := by
  have h := (C8_price_extractor).2.1 ["USD"] [] "GBP" ⟨"GBP", '£'⟩
    (String.toList "tickets £75.00") (String.toList "75.00") [] rfl (by decide)
    (by
      intro code hmem cfg hcfg
      simp only [List.mem_singleton] at hmem
      subst hmem
      obtain rfl := Option.some.inj
        (show some (⟨"USD", '$'⟩ : CurrencyConfig) = some cfg from hcfg)
      decide)
  have hp : parseDecimal (String.toList "75.00") = (75 : ℚ) := by
    rw [show parseDecimal (String.toList "75.00") = (75 : ℚ) + 0 / 10 ^ 2 from rfl]
    norm_num
  rw [hp] at h
  exact h

/-- Whether the decision engine fires at index `i` of a price sequence,
starting from a fresh alert (no last-notified price). -/
def firesAt (t : ℚ) (ps : List ℚ) (i : Nat) : Bool :=
  (runAlerts t none ps).getD i false

theorem runAlerts_getD (t : ℚ) (last : Option ℚ) (ps : List ℚ) (i : Nat)
    (hi : i < ps.length) :
    (runAlerts t last ps).getD i false
      = (shouldNotify t (stateAfter t last (ps.take i)) (ps.getD i 0)).1 := by
  induction ps generalizing last i with
  | nil => simp at hi
  | cons p ps ih =>
    cases i with
    | zero => simp [runAlerts, stateAfter]
    | succ j =>
      simp only [runAlerts, List.getD_cons_succ, List.take_succ_cons, stateAfter]
      exact ih _ j (by simpa using hi)

theorem stateAfter_append (t : ℚ) (l : Option ℚ) (xs ys : List ℚ) :
    stateAfter t l (xs ++ ys) = stateAfter t (stateAfter t l xs) ys := by
  induction xs generalizing l with
  | nil => rfl
  | cons x xs ih => simp only [List.cons_append, stateAfter]; exact ih _

theorem stateAfter_single (t : ℚ) (S : Option ℚ) (x : ℚ) :
    stateAfter t S [x] = if (shouldNotify t S x).1 then some x else S := rfl

theorem stateAfter_isSome (t : ℚ) (v : ℚ) (ps : List ℚ) :
    ∃ w, stateAfter t (some v) ps = some w := by
  induction ps generalizing v with
  | nil => exact ⟨v, rfl⟩
  | cons p ps ih =>
    simp only [stateAfter]
    by_cases hf : (shouldNotify t (some v) p).1
    · rw [if_pos hf]; exact ih p
    · rw [if_neg hf]; exact ih v

theorem shouldNotify_none_fst (t p : ℚ) : (shouldNotify t none p).1 = true ↔ p < t := by
  unfold shouldNotify
  by_cases h : t ≤ p
  · rw [if_pos h]
    constructor
    · intro hc; simp at hc
    · intro hc; exact absurd hc (not_lt.mpr h)
  · rw [if_neg h]
    simpa using lt_of_not_le h

theorem shouldNotify_some_fst (t v p : ℚ) :
    (shouldNotify t (some v) p).1 = true ↔ p < t ∧ p < v := by
  unfold shouldNotify
  by_cases h : t ≤ p
  · rw [if_pos h]
    constructor
    · intro hc; simp at hc
    · intro hc; exact absurd hc.1 (not_lt.mpr h)
  · rw [if_neg h]
    by_cases h2 : p < v
    · simp [h2, lt_of_not_le h]
    · simp [h2]

theorem take_succ_getD (ps : List ℚ) (j : Nat) (hjlt : j < ps.length) :
    ps.take (j + 1) = ps.take j ++ [ps.getD j 0] := by
  rw [List.take_succ, List.getElem?_eq_getElem hjlt, List.getD_eq_getElem ps 0 hjlt]
  rfl

theorem stateAfter_take_none_iff (t : ℚ) (ps : List ℚ) (i : Nat) (hi : i ≤ ps.length) :
    stateAfter t none (ps.take i) = none ↔ ∀ j, j < i → t ≤ ps.getD j 0 := by
  induction i with
  | zero => simp [stateAfter]
  | succ j ihj =>
    have hjlt : j < ps.length := by omega
    have hij : j ≤ ps.length := by omega
    rw [take_succ_getD ps j hjlt, stateAfter_append]
    constructor
    · intro h
      have hS : stateAfter t none (ps.take j) = none := by
        cases hS2 : stateAfter t none (ps.take j) with
        | none => rfl
        | some v =>
          rw [hS2] at h
          obtain ⟨w, hw⟩ := stateAfter_isSome t v [ps.getD j 0]
          rw [hw] at h
          simp at h
      intro k hk
      by_cases hkj : k < j
      · exact (ihj hij).mp hS k hkj
      · have hkj2 : k = j := by omega
        subst hkj2
        rw [hS] at h
        by_contra hc
        push_neg at hc
        rw [stateAfter_single, if_pos ((shouldNotify_none_fst t _).mpr hc)] at h
        simp at h
    · intro hall
      have hS : stateAfter t none (ps.take j) = none :=
        (ihj hij).mpr (fun k hk => hall k (by omega))
      rw [hS, stateAfter_single]
      have hf : ¬ (shouldNotify t none (ps.getD j 0)).1 = true := by
        rw [shouldNotify_none_fst]
        exact not_lt.mpr (hall j (by omega))
      rw [if_neg hf]

theorem stateAfter_take_some (t : ℚ) (ps : List ℚ) (i : Nat) (hi : i ≤ ps.length) (v : ℚ)
    (h : stateAfter t none (ps.take i) = some v) :
    ∃ k, k < i ∧ firesAt t ps k = true ∧ ps.getD k 0 = v
      ∧ ∀ m, k < m → m < i → firesAt t ps m = false := by
  induction i with
  | zero => simp [stateAfter] at h
  | succ j ihj =>
    have hjlt : j < ps.length := by omega
    have hij : j ≤ ps.length := by omega
    rw [take_succ_getD ps j hjlt, stateAfter_append] at h
    have hfire : firesAt t ps j
        = (shouldNotify t (stateAfter t none (ps.take j)) (ps.getD j 0)).1 :=
      runAlerts_getD t none ps j hjlt
    cases hS : stateAfter t none (ps.take j) with
    | none =>
      rw [hS, stateAfter_single] at h
      rw [hS] at hfire
      by_cases hf : (shouldNotify t none (ps.getD j 0)).1
      · rw [if_pos hf] at h
        refine ⟨j, by omega, by rw [hfire]; exact hf, Option.some.inj h, ?_⟩
        intro m h1 h2
        exact absurd h2 (by omega)
      · rw [if_neg hf] at h
        simp at h
    | some w =>
      rw [hS, stateAfter_single] at h
      rw [hS] at hfire
      by_cases hf : (shouldNotify t (some w) (ps.getD j 0)).1
      · rw [if_pos hf] at h
        refine ⟨j, by omega, by rw [hfire]; exact hf, Option.some.inj h, ?_⟩
        intro m h1 h2
        exact absurd h2 (by omega)
      · rw [if_neg hf] at h
        obtain ⟨k, hk, hfk, hgk, hbet⟩ := ihj hij (hS.trans h)
        refine ⟨k, by omega, hfk, hgk, ?_⟩
        intro m hkm hmj
        by_cases hmj2 : m < j
        · exact hbet m hkm hmj2
        · have hmj3 : m = j := by omega
          subst hmj3
          rw [hfire]
          exact Bool.eq_false_iff.mpr hf

theorem firesAt_lt_target (t : ℚ) (ps : List ℚ) (k : Nat) (hk : k < ps.length)
    (hf : firesAt t ps k = true) : ps.getD k 0 < t := by
  have h := runAlerts_getD t none ps k hk
  rw [firesAt] at hf
  rw [h] at hf
  cases hS : stateAfter t none (ps.take k) with
  | none => rw [hS] at hf; exact (shouldNotify_none_fst t _).mp hf
  | some v => rw [hS] at hf; exact ((shouldNotify_some_fst t v _).mp hf).1

/-- C1: the notification decision is the pure case analysis of the spec over
(target, last-notified, current), and over a price sequence (with the
last-notified price updated at each firing) a notification fires at index `i`
iff the price is below target and either no earlier price was below target or
it is strictly below the price at the most recent prior firing. The source
returns the empty string as the "no notification" reason. -/
theorem C1_notification_law :
    (∀ t last cur, shouldNotify t last cur =
      if t ≤ cur then (false, "")
      else match last with
        | none => (true, "first_time")
        | some lastP => if cur < lastP then (true, "price_drop") else (false, ""))
    ∧ (∀ t (ps : List ℚ) (i : Nat), i < ps.length →
      (firesAt t ps i = true ↔
        ps.getD i 0 < t ∧
          ((∀ j, j < i → ¬ ps.getD j 0 < t) ∨
            (∃ k, k < i ∧ firesAt t ps k = true
              ∧ (∀ m, k < m → m < i → firesAt t ps m = false)
              ∧ ps.getD i 0 < ps.getD k 0)))) := by
  constructor
  · intro t last cur
    rfl
  · intro t ps i hi
    have hfire : firesAt t ps i
        = (shouldNotify t (stateAfter t none (ps.take i)) (ps.getD i 0)).1 :=
      runAlerts_getD t none ps i hi
    cases hS : stateAfter t none (ps.take i) with
    | none =>
      rw [hS] at hfire
      have hall := (stateAfter_take_none_iff t ps i (le_of_lt hi)).mp hS
      constructor
      · intro hf
        have hx := (shouldNotify_none_fst t _).mp (hfire.symm.trans hf)
        exact ⟨hx, Or.inl (fun j hj => not_lt.mpr (hall j hj))⟩
      · rintro ⟨hx, _⟩
        rw [hfire]
        exact (shouldNotify_none_fst t _).mpr hx
    | some v =>
      rw [hS] at hfire
      obtain ⟨k, hk, hfk, hgk, hbet⟩ :=
        stateAfter_take_some t ps i (le_of_lt hi) v hS
      constructor
      · intro hf
        have hx := (shouldNotify_some_fst t v _).mp (hfire.symm.trans hf)
        exact ⟨hx.1, Or.inr ⟨k, hk, hfk, hbet, by rw [hgk]; exact hx.2⟩⟩
      · rintro ⟨hx, hdisj⟩
        rw [hfire]
        refine (shouldNotify_some_fst t v _).mpr ⟨hx, ?_⟩
        rcases hdisj with hfirst | ⟨k2, hk2, hfk2, hbet2, hlt2⟩
        · have hklt : ps.getD k 0 < t :=
            firesAt_lt_target t ps k (by omega) hfk
          exact absurd hklt (hfirst k hk)
        · have hkk : k2 = k := by
            rcases lt_trichotomy k2 k with h1 | h1 | h1
            · exact absurd (hbet2 k h1 hk) (by rw [hfk]; simp)
            · exact h1
            · exact absurd (hbet k2 h1 hk2) (by rw [hfk2]; simp)
          subst hkk
          rw [← hgk]
          exact hlt2

/-- C1 witness: the sequence law fires at index 2 (0-based) of the spec's
concrete example T = 100, prices 95, 95, 90, 92, 80 — a price drop below the
most recent notified price 95. -/
theorem C1_witness : firesAt 100 [95, 95, 90, 92, 80] 2 = true := by
  refine ((C1_notification_law).2 100 [95, 95, 90, 92, 80] 2 (by decide)).mpr ?_
  refine ⟨by decide, Or.inr ⟨0, by decide, by decide, ?_, by decide⟩⟩
  intro m h1 h2
  have hm : m = 1 := by omega
  subst hm
  decide

/-- Number of active alert rows — the batch query's result size. -/
def activeCount (l : List AlertState) : Nat :=
  (l.filter (fun a => a.isActive)).length

theorem processSeq_cons_active (envs : Nat → AlertEnv) (k : Nat) (a : AlertState)
    (rest : List AlertState) (ha : a.isActive = true) :
    processSeq envs k (a :: rest)
      = ⟨(processAlertTx (envs k) a).alert :: (processSeq envs (k + 1) rest).alerts,
         (processAlertTx (envs k) a).newRecord.toList
           ++ (processSeq envs (k + 1) rest).records,
         (processAlertTx (envs k) a).newLog.toList
           ++ (processSeq envs (k + 1) rest).logs,
         (if (processAlertTx (envs k) a).ok then 1 else 0)
           + (processSeq envs (k + 1) rest).succ,
         (if (processAlertTx (envs k) a).ok then 0 else 1)
           + (processSeq envs (k + 1) rest).fail⟩ := by
  simp only [processSeq, ha, if_true]

theorem processSeq_cons_inactive (envs : Nat → AlertEnv) (k : Nat) (a : AlertState)
    (rest : List AlertState) (ha : ¬ a.isActive = true) :
    processSeq envs k (a :: rest)
      = ⟨a :: (processSeq envs k rest).alerts, (processSeq envs k rest).records,
         (processSeq envs k rest).logs, (processSeq envs k rest).succ,
         (processSeq envs k rest).fail⟩ := by
  simp only [processSeq, if_neg ha]

theorem activeCount_cons_active {a : AlertState} (rest : List AlertState)
    (ha : a.isActive = true) : activeCount (a :: rest) = activeCount rest + 1 := by
  simp [activeCount, List.filter_cons, ha]

theorem activeCount_cons_inactive {a : AlertState} (rest : List AlertState)
    (ha : ¬ a.isActive = true) : activeCount (a :: rest) = activeCount rest := by
  have ha2 : a.isActive = false := Bool.eq_false_iff.mpr ha
  simp [activeCount, List.filter_cons, ha2]

theorem processSeq_append (envs : Nat → AlertEnv) (k : Nat) (xs ys : List AlertState) :
    processSeq envs k (xs ++ ys)
      = ⟨(processSeq envs k xs).alerts
           ++ (processSeq envs (k + activeCount xs) ys).alerts,
         (processSeq envs k xs).records
           ++ (processSeq envs (k + activeCount xs) ys).records,
         (processSeq envs k xs).logs
           ++ (processSeq envs (k + activeCount xs) ys).logs,
         (processSeq envs k xs).succ + (processSeq envs (k + activeCount xs) ys).succ,
         (processSeq envs k xs).fail + (processSeq envs (k + activeCount xs) ys).fail⟩ := by
  induction xs generalizing k with
  | nil => simp [processSeq, activeCount]
  | cons a xs ih =>
    by_cases ha : a.isActive = true
    · have hac := activeCount_cons_active xs ha
      rw [List.cons_append, processSeq_cons_active envs k a (xs ++ ys) ha, ih (k + 1),
          processSeq_cons_active envs k a xs ha, hac]
      have hidx : k + (activeCount xs + 1) = (k + 1) + activeCount xs := by omega
      rw [hidx]
      simp [List.append_assoc, Nat.add_assoc]
    · have hac := activeCount_cons_inactive xs ha
      rw [List.cons_append, processSeq_cons_inactive envs k a (xs ++ ys) ha, ih k,
          processSeq_cons_inactive envs k a xs ha, hac]
      simp

theorem processSeq_tally (envs : Nat → AlertEnv) (k : Nat) (l : List AlertState) :
    (processSeq envs k l).succ + (processSeq envs k l).fail = activeCount l := by
  induction l generalizing k with
  | nil => rfl
  | cons a rest ih =>
    by_cases ha : a.isActive = true
    · rw [processSeq_cons_active envs k a rest ha, activeCount_cons_active rest ha]
      dsimp only
      have hr := ih (k + 1)
      by_cases ho : (processAlertTx (envs k) a).ok <;> simp [ho] <;> omega
    · rw [processSeq_cons_inactive envs k a rest ha, activeCount_cons_inactive rest ha]
      exact ih k

/-- The two-alert batch of the spec's failure-isolation scenario: alert A
(Ticketmaster, navigation fails on every attempt) then alert B (Ticketmaster,
page shows $80, target 100, notifier succeeds). -/
def alertB : AlertState := ⟨2, "B", "ticketmaster", "http://tm", 100, none, true, none⟩

def intEnv : AlertEnv := ⟨⟨fun _ => goodPage, fun _ => none, fun _ => none⟩, .ok true, 11⟩

def twoDB : DB := ⟨[tmAlert, alertB], [], []⟩

def twoEnvs : Nat → AlertEnv := fun k => if k = 0 then navFailEnv else intEnv

/-- C7: batch processing isolates failures per alert — the tally satisfies
total = number of active alerts = succeeded + failed, committed rows only ever
accumulate, each alert's row and success bit are a function of its own
environment and row alone (the batch splits around it), and in the concrete
2-alert scenario where A's scrape throws and B's succeeds the result is
total 2, succeeded 1, failed 1 with B's observation and notification
committed. -/
theorem C7_batch_isolation :
    (∀ envs db,
      (processAllAlerts envs db).1.total = activeCount db.alerts
      ∧ (processAllAlerts envs db).1.total
          = (processAllAlerts envs db).1.success + (processAllAlerts envs db).1.failed
      ∧ (processAllAlerts envs db).2.priceRecords
          = db.priceRecords ++ (processSeq envs 0 db.alerts).records
      ∧ (processAllAlerts envs db).2.notificationLogs
          = db.notificationLogs ++ (processSeq envs 0 db.alerts).logs)
    ∧ (∀ envs db xs a ys, db.alerts = xs ++ a :: ys → a.isActive = true →
      (processAllAlerts envs db).2.alerts
        = (processSeq envs 0 xs).alerts
          ++ (processAlertTx (envs (activeCount xs)) a).alert
            :: (processSeq envs (activeCount xs + 1) ys).alerts
      ∧ (processAllAlerts envs db).1.success
        = (processSeq envs 0 xs).succ
          + ((if (processAlertTx (envs (activeCount xs)) a).ok then 1 else 0)
            + (processSeq envs (activeCount xs + 1) ys).succ))
    ∧ (processAllAlerts twoEnvs twoDB).1 = ⟨2, 1, 1⟩
    ∧ (processAllAlerts twoEnvs twoDB).2.notificationLogs = [⟨2, "first_time", 80⟩]
    ∧ (processAllAlerts twoEnvs twoDB).2.priceRecords.map
        (fun row => (row.alertId, row.price, row.availability))
      = [(2, (80 : ℚ), "available")] := by
  refine ⟨?_, ?_, by decide, by decide, by decide⟩
  · intro envs db
    refine ⟨rfl, ?_, rfl, rfl⟩
    exact (processSeq_tally envs 0 db.alerts).symm
  · intro envs db xs a ys hdb ha
    constructor
    · show (processSeq envs 0 db.alerts).alerts = _
      rw [hdb, processSeq_append, processSeq_cons_active envs (0 + activeCount xs) a ys ha]
      simp [Nat.zero_add]
    · show (processSeq envs 0 db.alerts).succ = _
      rw [hdb, processSeq_append, processSeq_cons_active envs (0 + activeCount xs) a ys ha]
      simp [Nat.zero_add]

/-- C7 witness: the batch-splitting fact applied at the concrete 2-alert
batch, around failing alert A. -/
theorem C7_witness :
    (processAllAlerts twoEnvs twoDB).2.alerts
      = (processSeq twoEnvs 0 []).alerts
        ++ (processAlertTx (twoEnvs (activeCount [])) tmAlert).alert
          :: (processSeq twoEnvs (activeCount [] + 1) [alertB]).alerts := by
  exact ((C7_batch_isolation).2.1 twoEnvs twoDB [] tmAlert [alertB] rfl rfl).1

end Tickets
